import Mathlib

/-!
Verification of the jsarch architecture-note extraction pipeline
(`src/jsarch.js`) against its natural-language specification.

The JavaScript source is shallowly embedded: strings are Lean `String`s
(manipulated through their underlying `List Char`), the two regular
expressions of the source are embedded as equivalent explicit matchers,
the promise chain of `_extractArchitectureNotes` becomes an `Except`
chain, and the external collaborators (the `fs` read and the
`recast`/`ast-types` comment enumeration) are parameters.
-/

/-! ## Character classes used by the two regular expressions -/

/-- Models the JavaScript `\s` character class for the characters that can
occur in source files handled here (space, tab, newline, carriage return,
vertical tab, form feed). -/
def jsWhitespaceChar (c : Char) : Bool :=
  c == ' ' || c == '\t' || c == '\n' || c == '\r' || c == '\x0b' || c == '\x0c'

/-- Models the JavaScript `\w` character class: ASCII letters, digits and
underscore. -/
def wordChar (c : Char) : Bool :=
  c.isAlpha || c.isDigit || c == '_'

/-- A character admitted by the title capture group `[^\r\n$]` of
`ARCHITECTURE_NOTE_REGEXP`: anything except carriage return, newline and
the literal dollar sign (inside a character class `$` is a literal). -/
def titleChar (c : Char) : Bool :=
  !(c == '\r' || c == '\n' || c == '$')

/-! ## JavaScript string/number primitives used by the source -/

/-- Models `String.prototype.split(sep)` for a one-character separator,
on the character list of the string: splits at every separator, keeping
empty groups, never returning an empty list of groups. -/
def splitOnChar (sep : Char) : List Char → List (List Char)
  | [] => [[]]
  | c :: rest =>
    if c = sep then [] :: splitOnChar sep rest
    else
      match splitOnChar sep rest with
      | [] => [[c]]
      | g :: gs => (c :: g) :: gs

/-- `String.prototype.split('.')`, as used on note ids. -/
def splitDot (l : List Char) : List (List Char) :=
  splitOnChar '.' l

/-- Models `parseInt(s, 10)` for the strings this program feeds it
(the dot-separated groups of a note id, which are digit runs): the
leading digit run is read in base 10, and `none` stands for `NaN`
(no leading digit). -/
def parseIntTen (l : List Char) : Option Nat :=
  let ds := l.takeWhile Char.isDigit
  if ds = [] then none
  else some (ds.foldl (fun acc c => acc * 10 + (c.toNat - 48)) 0)

/-- Models the JavaScript `>` comparison on numbers where `none` is `NaN`
(every comparison involving `NaN` is false). -/
def jsGt : Option Nat → Option Nat → Bool
  | some a, some b => decide (b < a)
  | _, _ => false

/-- Models the JavaScript `<` comparison on numbers where `none` is `NaN`. -/
def jsLt : Option Nat → Option Nat → Bool
  | some a, some b => decide (a < b)
  | _, _ => false

/-- Models `String.prototype.trim()`: strip whitespace from both ends. -/
def jsTrim (l : List Char) : List Char :=
  ((l.dropWhile jsWhitespaceChar).reverse.dropWhile jsWhitespaceChar).reverse

/-! ## The Note data model -/

/-- A located comment, as produced by the external parser collaborator
(`recast.parse` plus the `ast-types` comment visit): the raw comment text
and its 1-based start/end source lines. -/
structure SourceComment where
  text : String
  startLine : Nat
  endLine : Nat
deriving DecidableEq

/-- An architecture note record, as pushed by `_extractArchitectureNotes`:
`num` is the dotted id string (capture 1 of the marker regexp), `title`
the trimmed capture 2, `content` the trimmed remainder of the comment
after the whole match, plus the file path and the comment line range. -/
structure ArchitectureNote where
  num : String
  title : String
  content : String
  filePath : String
  startLine : Nat
  endLine : Nat
deriving DecidableEq

/-! ## The Orderer (`_compareArchitectureNotes`, source lines 235-256) -/

/-- The dotted id of a note as the comparator sees it:
`a.num.split('.').map(n => parseInt(n, 10))`. -/
def titleLevelsOf (num : String) : List (Option Nat) :=
  (splitDot num.data).map parseIntTen

/-- One iteration of the `reduce` callback inside
`_compareArchitectureNotes`: keep a non-zero order, report 1 when `b`'s
id has no component at this index, otherwise compare the components. -/
def reduceStep (bTitleLevels : List (Option Nat)) (curOrder : Int)
    (index : Nat) (curALevel : Option Nat) : Int :=
  if curOrder ≠ 0 then curOrder
  else
    match bTitleLevels[index]? with
    | none => 1
    | some curBLevel =>
      if jsGt curALevel curBLevel then 1
      else if jsLt curALevel curBLevel then -1
      else 0

/-- The `Array.prototype.reduce` over `aTitleLevels` with the running
index, starting from order 0. -/
def reduceFrom (bTitleLevels : List (Option Nat)) :
    Int → Nat → List (Option Nat) → Int
  | curOrder, _, [] => curOrder
  | curOrder, i, a :: as =>
    reduceFrom bTitleLevels (reduceStep bTitleLevels curOrder i a) (i + 1) as

/-- The comparator body applied to already split-and-parsed ids. -/
def compareLevels (aTitleLevels bTitleLevels : List (Option Nat)) : Int :=
  reduceFrom bTitleLevels 0 0 aTitleLevels

/-- `_compareArchitectureNotes(a, b)` from the source: split both `num`
strings on dots, parse the groups as base-10 integers, and walk `a`'s
components left to right as described in `reduceStep`. -/
def _compareArchitectureNotes (a b : ArchitectureNote) : Int :=
  compareLevels (titleLevelsOf a.num) (titleLevelsOf b.num)

/-! ## The stable sort applied by `jsArch` (source line 97) -/

/-- Insert an element into an already placed list, putting it before the
first element `y` with `cmp x y < 0` (so elements comparing equal keep
their earlier-first order). -/
def jsSortInsert (cmp : ArchitectureNote → ArchitectureNote → Int)
    (x : ArchitectureNote) : List ArchitectureNote → List ArchitectureNote
  | [] => [x]
  | y :: ys => if cmp x y < 0 then x :: y :: ys else y :: jsSortInsert cmp x ys

/-- Stable insertion sort modelling `Array.prototype.sort(comparefn)`
(stable since ES2019; elements are inserted in input order and placed
after everything that does not compare greater). -/
def jsStableSort (cmp : ArchitectureNote → ArchitectureNote → Int)
    (l : List ArchitectureNote) : List ArchitectureNote :=
  l.foldl (fun acc x => jsSortInsert cmp x acc) []

/-! ## The Note Parser (`ARCHITECTURE_NOTE_REGEXP`, source lines 7-8)

The regular expression
`^\s*Architecture Note #((?:\d+(?:\.(?=\d)|)){1,8}):\s+([^\r\n$]*)` is
embedded as an explicit matcher.  Because the pattern is anchored and
every alternation is decided by the next character (`\.` only fires
under a digit lookahead, `\s+` and `[^\r\n$]*` consume disjoint runs at
their stop characters), the greedy left-to-right parse below is
equivalent to the backtracking regex semantics. -/

/-- Consume an exact literal prefix, returning the remainder. -/
def dropLiteral : List Char → List Char → Option (List Char)
  | [], l => some l
  | _ :: _, [] => none
  | c :: cs, x :: xs => if c = x then dropLiteral cs xs else none

/-- The id part `(?:\d+(?:\.(?=\d)|)){1,8}`: up to `fuel` dot-separated
digit groups; a dot is consumed only when followed by a digit and only
when another group may still start.  Returns the consumed id characters
and the remainder. -/
def parseIdGroups : Nat → List Char → Option (List Char × List Char)
  | 0, _ => none
  | f + 1, l =>
    if l.takeWhile Char.isDigit = [] then none
    else
      match l.dropWhile Char.isDigit with
      | '.' :: c :: r2 =>
        if c.isDigit ∧ 0 < f then
          match parseIdGroups f (c :: r2) with
          | some (gs, r3) => some (l.takeWhile Char.isDigit ++ '.' :: gs, r3)
          | none => none
        else some (l.takeWhile Char.isDigit, l.dropWhile Char.isDigit)
      | _ => some (l.takeWhile Char.isDigit, l.dropWhile Char.isDigit)

/-- The literal part of the marker grammar. -/
def noteMarkerLiteral : List Char := "Architecture Note #".data

/-- `ARCHITECTURE_NOTE_REGEXP.exec` on a comment text (the regexp is
anchored by `^`, so only a match at the start counts).  Returns
`(whole, num, title)`: the whole match `matches[0]` and the two capture
groups `matches[1]` and `matches[2]`. -/
def matchNoteMarkerL (l : List Char) : Option (List Char × List Char × List Char) :=
  match dropLiteral noteMarkerLiteral (l.dropWhile jsWhitespaceChar) with
  | none => none
  | some r2 =>
    match parseIdGroups 8 r2 with
    | none => none
    | some (num, r3) =>
      match r3 with
      | ':' :: r4 =>
        if r4.takeWhile jsWhitespaceChar = [] then none
        else
          some (l.takeWhile jsWhitespaceChar ++ noteMarkerLiteral ++ num ++
              ':' :: (r4.takeWhile jsWhitespaceChar ++
                (r4.dropWhile jsWhitespaceChar).takeWhile titleChar),
            num, (r4.dropWhile jsWhitespaceChar).takeWhile titleChar)
      | _ => none

/-- The body of the `visitComment` visitor (source lines 177-191): run
the marker regexp on the comment text; on a match build the note with
`num = matches[1]`, `title = matches[2].trim()`,
`content = comment.substr(matches[0].length).trim()`, the file path and
the comment's line range; otherwise produce no note. -/
def noteOfComment (filePath : String) (c : SourceComment) : Option ArchitectureNote :=
  match matchNoteMarkerL c.text.data with
  | none => none
  | some (whole, num, title) =>
    some
      { num := String.mk num
        title := String.mk (jsTrim title)
        content := String.mk (jsTrim (c.text.data.drop whole.length))
        filePath := filePath
        startLine := c.startLine
        endLine := c.endLine }

/-! ## The shebang neutralization (`SHEBANG_REGEXP`, source line 9, and
`_stripShebang`, source lines 160-166)

The regular expression `#! (\/\w+)+ node` is *not* anchored: `test`
searches for the pattern at every position of the content. -/

/-- The `(\/\w+)+` part: consume one or more groups of a slash followed
by a nonempty word-character run, greedily, returning the remainder.
`fuel` bounds the recursion (each group consumes at least two
characters, so the list length is enough fuel). -/
def shebangSegsAux : Nat → List Char → Option (List Char)
  | 0, _ => none
  | f + 1, '/' :: rest =>
    let run := rest.takeWhile wordChar
    if run = [] then none
    else
      let r2 := rest.dropWhile wordChar
      match shebangSegsAux f r2 with
      | some r3 => some r3
      | none => some r2
  | _ + 1, _ => none

/-- `(\/\w+)+` with enough fuel for its input. -/
def shebangSegs (l : List Char) : Option (List Char) :=
  shebangSegsAux l.length l

/-- Does `SHEBANG_REGEXP` match at this exact position: `#! `, then
`(\/\w+)+`, then ` node`. -/
def matchShebangAt (l : List Char) : Bool :=
  match l with
  | '#' :: '!' :: ' ' :: rest =>
    match shebangSegs rest with
    | some r => (dropLiteral " node".data r).isSome
    | none => false
  | _ => false

/-- `SHEBANG_REGEXP.test(content)`: search the pattern at every
position. -/
def shebangTest : List Char → Bool
  | [] => false
  | c :: rest => matchShebangAt (c :: rest) || shebangTest rest

/-- `_stripShebang` (source lines 160-166): when the shebang pattern
occurs anywhere in the content, prefix the whole content with the
comment marker string; otherwise return the content unchanged. -/
def _stripShebang (content : String) : String :=
  if shebangTest content.data then "// Shebang commented by jsarch: " ++ content
  else content

/-! ## The extraction promise chain (`_extractArchitectureNotes`,
source lines 153-210)

The promise chain is embedded as an `Except JsErr` computation.  The two
collaborators are parameters: `readFileAsync` (the `fs` service) and
`parseAst` (`recast.parse` followed by the `ast-types` comment visit,
yielding the located comments of the file). -/

/-- The second argument of `YError.wrap` at the two wrap sites: the
first catch passes the `filePath` string, while the final catch (source
lines 205-209) passes `path` — the required Node `path` *module*, not
the file path.  The two are kept distinct. -/
inductive ErrParam where
  | str (s : String)
  | pathModule
deriving DecidableEq

/-- An error value: either an error raised by a collaborator, or a
`YError.wrap(cause, code, param)` wrapper. -/
inductive JsErr where
  | external (msg : String)
  | wrapped (code : String) (param : ErrParam) (cause : JsErr)
deriving DecidableEq

/-- `promise.then(f)` for a value-returning continuation. -/
def promiseMap {α β : Type} (f : α → β) : Except JsErr α → Except JsErr β
  | Except.error e => Except.error e
  | Except.ok a => Except.ok (f a)

/-- `promise.then(f)` for a promise-returning continuation. -/
def promiseThen {α β : Type} (p : Except JsErr α) (f : α → Except JsErr β) :
    Except JsErr β :=
  match p with
  | Except.error e => Except.error e
  | Except.ok a => f a

/-- `promise.catch(h)`: a rejected promise is handed to the handler,
a fulfilled one passes through. -/
def promiseCatch {α : Type} (p : Except JsErr α) (h : JsErr → Except JsErr α) :
    Except JsErr α :=
  match p with
  | Except.error e => h e
  | Except.ok a => Except.ok a

/-- `_extractArchitectureNotes({fs, log}, filePath)`: read the file,
neutralize a shebang, catch read failures wrapping them as
`E_FILE_FAILURE(filePath)`, parse the content into comments and build
the notes, and finally catch any rejection still flowing down the chain
— read failures included — wrapping it as `E_FILE_PARSE_FAILURE(path)`
where `path` is the Node path module (exactly as the source does). -/
def _extractArchitectureNotes
    (readFileAsync : String → Except JsErr String)
    (parseAst : String → Except JsErr (List SourceComment))
    (filePath : String) : Except JsErr (List ArchitectureNote) :=
  promiseCatch
    (promiseThen
      (promiseCatch
        (promiseMap _stripShebang (readFileAsync filePath))
        (fun err =>
          Except.error (JsErr.wrapped "E_FILE_FAILURE" (ErrParam.str filePath) err)))
      (fun content =>
        promiseMap (fun comments => comments.filterMap (noteOfComment filePath))
          (parseAst content)))
    (fun err =>
      Except.error (JsErr.wrapped "E_FILE_PARSE_FAILURE" ErrParam.pathModule err))

/-- `Promise.all` over already-started extractions, in list order (the
single-threaded model: the first rejection in order rejects the whole
aggregate). -/
def promiseAll {α : Type} : List (Except JsErr α) → Except JsErr (List α)
  | [] => Except.ok []
  | Except.error e :: _ => Except.error e
  | Except.ok a :: rest => promiseMap (fun l => a :: l) (promiseAll rest)

/-- `_linearize` (source lines 212-218): flatten the per-file note
arrays by left-to-right concatenation. -/
def _linearize {α : Type} (bulks : List (List α)) : List α :=
  bulks.foldl (fun array arrayBulk => array ++ arrayBulk) []

/-- The collection step of `jsArch` (source lines 88-94): run the
extractor on every resolved file and flatten the results. -/
def collectNotes
    (readFileAsync : String → Except JsErr String)
    (parseAst : String → Except JsErr (List SourceComment))
    (files : List String) : Except JsErr (List ArchitectureNote) :=
  promiseMap _linearize
    (promiseAll (files.map (_extractArchitectureNotes readFileAsync parseAst)))

/-! ## The Renderer's context link (`jsArch`, source lines 104-107) -/

/-- Split a POSIX path on slashes, dropping empty segments. -/
def splitSlash (s : String) : List String :=
  ((splitOnChar '/' s.data).map String.mk).filter (fun part => part ≠ "")

/-- Drop the common leading segments of two segment lists. -/
def dropCommonSegs : List String → List String → List String × List String
  | a :: as, b :: bs => if a = b then dropCommonSegs as bs else (a :: as, b :: bs)
  | as, bs => (as, bs)

/-- Models Node's `path.relative(from, to)` for absolute, already
normalized POSIX paths (the only inputs the renderer hands it): drop the
common prefix, go up with `..` for what is left of `from`, then down
into what is left of `to`. -/
def pathRelative (fromPath toPath : String) : String :=
  let rests := dropCommonSegs (splitSlash fromPath) (splitSlash toPath)
  String.intercalate "/" (rests.1.map (fun _ => "..") ++ rests.2)

/-- The context link line emitted for one note (source lines 104-107):
`'[See in context](' + base + '/' + path.relative(cwd, filePath) + '#L'
+ loc.start.line + '-L' + loc.end.line + ')'`. -/
def contextLink (base cwd : String) (n : ArchitectureNote) : String :=
  "[See in context](" ++ base ++ "/" ++ pathRelative cwd n.filePath ++
    "#L" ++ toString n.startLine ++ "-L" ++ toString n.endLine ++ ")"

/-! ## Concrete fixtures used by witnesses and counterexamples -/

/-- A note carrying a given id, with the other fields fixed (the
comparator and the sort only look at `num`). -/
def mkNote (num : String) : ArchitectureNote :=
  { num := num, title := "", content := "", filePath := "", startLine := 1, endLine := 1 }

/-- Note with id "1". -/
def noteOne : ArchitectureNote := mkNote "1"

/-- Note with id "1.1". -/
def noteOneOne : ArchitectureNote := mkNote "1.1"

/-- Note with id "1.2". -/
def noteOneTwo : ArchitectureNote := mkNote "1.2"

/-- Note with id "2". -/
def noteTwo : ArchitectureNote := mkNote "2"

/-- Note with id "10". -/
def noteTen : ArchitectureNote := mkNote "10"

/-- The ordered note list `1, 1.1, 1.2, 2, 10` of the spec's sort
property. -/
def targetNotes : List ArchitectureNote :=
  [noteOne, noteOneOne, noteOneTwo, noteTwo, noteTen]

/-- The input permutation `1.1, 1, 2, 10, 1.2` on which the sort does
not restore the claimed order. -/
def cexPermNotes : List ArchitectureNote :=
  [noteOneOne, noteOne, noteTwo, noteTen, noteOneTwo]

/-- A filesystem collaborator whose read fails for `bad.js` with an
`EACCES` I/O error and succeeds (empty file) elsewhere. -/
def readFileGoodBad : String → Except JsErr String :=
  fun p => if p = "bad.js" then Except.error (JsErr.external "EACCES") else Except.ok ""

/-- A parser collaborator returning one well-formed note comment for
every file. -/
def parseAstOneNote : String → Except JsErr (List SourceComment) :=
  fun _ => Except.ok [{ text := "Architecture Note #3: T\n\nB", startLine := 1, endLine := 3 }]

/-- Content of a CLI file beginning with a shebang line. -/
def shebangContent : String := "#! /usr/bin/env node\nvar x = 1;"

/-- The comments the parser collaborator reports for the neutralized
`shebangContent`: the line-1 comment produced by the neutralization
(the text of a `//` comment excludes the marker itself) and an ordinary
note comment further down. -/
def shebangComments : List SourceComment :=
  [{ text := " Shebang commented by jsarch: #! /usr/bin/env node", startLine := 1, endLine := 1 },
   { text := "Architecture Note #2: X\n\nY", startLine := 3, endLine := 5 }]

/-- Content whose shebang pattern occurs only inside a string literal in
the middle of the file. -/
def midFileShebangContent : String := "var a = 1;\nconst s = '#! /usr/bin/env node';\n"

/-! # Theorems

First the generic lemmas about the embedded operations, then one theorem
per claim of the specification review. -/

theorem jsGt_self (x : Option Nat) : jsGt x x = false := by
  cases x <;> simp [jsGt]

theorem jsLt_self (x : Option Nat) : jsLt x x = false := by
  cases x <;> simp [jsLt]

theorem reduceFrom_nonzero (bL : List (Option Nat)) (cur : Int) (h : cur ≠ 0) :
    ∀ (aL : List (Option Nat)) (i : Nat), reduceFrom bL cur i aL = cur := by
  intro aL
  induction aL with
  | nil => intro i; rfl
  | cons a as ih =>
    intro i
    show reduceFrom bL (reduceStep bL cur i a) (i + 1) as = cur
    rw [show reduceStep bL cur i a = cur from by simp [reduceStep, h]]
    exact ih (i + 1)

theorem reduceFrom_append_eq (bL : List (Option Nat)) :
    ∀ (p rest : List (Option Nat)) (i : Nat),
      (∀ j, j < p.length → bL[i + j]? = p[j]?) →
      reduceFrom bL 0 i (p ++ rest) = reduceFrom bL 0 (i + p.length) rest := by
  intro p
  induction p with
  | nil => intro rest i _; simp
  | cons a p' ih =>
    intro rest i h
    have h0 : bL[i]? = some a := by simpa using h 0 (by simp)
    show reduceFrom bL (reduceStep bL 0 i a) (i + 1) (p' ++ rest) = _
    rw [show reduceStep bL 0 i a = 0 from by
      simp [reduceStep, h0, jsGt_self, jsLt_self]]
    rw [ih rest (i + 1) (fun j hj => by
      have := h (j + 1) (by simpa using Nat.succ_lt_succ hj)
      simpa [Nat.add_comm 1 j, Nat.add_assoc] using this)]
    congr 1
    simp [Nat.add_assoc, Nat.add_comm 1 p'.length]

/-- C1: for Notes whose parsed id sequences form a strict proper prefix
pair, the comparator returns 0 with the ancestor first and +1 with the
descendant first, so it is not antisymmetric on prefix pairs. -/
theorem compare_prefix_pair (a b : ArchitectureNote)
    (hpre : titleLevelsOf a.num <+: titleLevelsOf b.num)
    (hne : titleLevelsOf a.num ≠ titleLevelsOf b.num) :
    _compareArchitectureNotes a b = 0 ∧ _compareArchitectureNotes b a = 1 := by
  obtain ⟨t, ht⟩ := hpre
  cases t with
  | nil => exact absurd (by simpa using ht) hne
  | cons c t' =>
    constructor
    · show compareLevels (titleLevelsOf a.num) (titleLevelsOf b.num) = 0
      rw [← ht]
      show reduceFrom (titleLevelsOf a.num ++ c :: t') 0 0 (titleLevelsOf a.num) = 0
      have h1 := reduceFrom_append_eq (titleLevelsOf a.num ++ c :: t')
        (titleLevelsOf a.num) [] 0
        (fun j hj => by simp [List.getElem?_append, hj])
      simpa using h1
    · show compareLevels (titleLevelsOf b.num) (titleLevelsOf a.num) = 1
      rw [← ht]
      show reduceFrom (titleLevelsOf a.num) 0 0 (titleLevelsOf a.num ++ c :: t') = 1
      rw [reduceFrom_append_eq (titleLevelsOf a.num) (titleLevelsOf a.num) (c :: t') 0
        (fun j hj => by simp)]
      show reduceFrom (titleLevelsOf a.num)
        (reduceStep (titleLevelsOf a.num) 0 (0 + (titleLevelsOf a.num).length) c) _ t' = 1
      rw [show reduceStep (titleLevelsOf a.num) 0 (0 + (titleLevelsOf a.num).length) c = 1 from by
        simp [reduceStep, List.getElem?_eq_none (by simp : (titleLevelsOf a.num).length ≤ 0 + (titleLevelsOf a.num).length)]]
      exact reduceFrom_nonzero _ 1 (by decide) t' _

/-- Witness for C1 at the concrete prefix pair of ids "1" and "1.2". -/
theorem compare_prefix_pair_witness :
    titleLevelsOf (mkNote "1").num <+: titleLevelsOf (mkNote "1.2").num ∧
    _compareArchitectureNotes (mkNote "1") (mkNote "1.2") = 0 ∧
    _compareArchitectureNotes (mkNote "1.2") (mkNote "1") = 1 := by
  refine ⟨⟨[some 2], by decide⟩, ?_⟩
  exact compare_prefix_pair (mkNote "1") (mkNote "1.2") ⟨[some 2], by decide⟩ (by decide)

/-- C2 counterexample: the comparator applied to the Notes with ids "1"
and "1.1" returns 0, not the claimed -1. -/
theorem compare_ancestor_cex :
    _compareArchitectureNotes noteOne noteOneOne = 0 ∧ (0 : Int) ≠ -1 := by decide

/-- C2 amended: compare("1", "1.1") returns 0 (the left-to-right walk
finds no mismatch within the shorter id); only with the descendant as
first argument does the comparator return +1. -/
theorem compare_ancestor_amended :
    _compareArchitectureNotes noteOne noteOneOne = 0 ∧
    _compareArchitectureNotes noteOneOne noteOne = 1 := by decide

/-- C5 counterexample: the permutation `1.1, 1, 2, 10, 1.2` of the five
Notes is stably sorted to `1.1, 1, 1.2, 2, 10`, not to the claimed
`1, 1.1, 1.2, 2, 10` (the comparator reports `1` and `1.1` as equal in
that encounter order, so the stable sort keeps `1.1` first). -/
theorem jsarch_sort_cex :
    cexPermNotes.Perm targetNotes ∧
    jsStableSort _compareArchitectureNotes cexPermNotes ≠ targetNotes ∧
    jsStableSort _compareArchitectureNotes cexPermNotes =
      [noteOneOne, noteOne, noteOneTwo, noteTwo, noteTen] :=
  ⟨List.mem_permutations'.mp (by decide), by decide, by decide⟩

set_option maxRecDepth 10000 in
/-- C5 amended: for every permutation of the five Notes with ids
"1", "1.1", "1.2", "2", "10" in which the Note "1" appears before both
"1.1" and "1.2", the stable sort with the comparator yields exactly the
order 1, 1.1, 1.2, 2, 10 — in particular "10" sorts after "2" because
components are compared numerically, not as strings. -/
theorem jsarch_sort_sorted (l : List ArchitectureNote)
    (hperm : l.Perm targetNotes)
    (h1 : l.indexOf noteOne < l.indexOf noteOneOne)
    (h2 : l.indexOf noteOne < l.indexOf noteOneTwo) :
    jsStableSort _compareArchitectureNotes l = targetNotes := by
  have H : ∀ x ∈ targetNotes.permutations',
      x.indexOf noteOne < x.indexOf noteOneOne →
      x.indexOf noteOne < x.indexOf noteOneTwo →
      jsStableSort _compareArchitectureNotes x = targetNotes := by decide
  exact H l (List.mem_permutations'.mpr hperm) h1 h2

/-- Witness for the amended C5 at the permutation `2, 10, 1, 1.1, 1.2`. -/
theorem jsarch_sort_sorted_witness :
    jsStableSort _compareArchitectureNotes [noteTwo, noteTen, noteOne, noteOneOne, noteOneTwo] =
      targetNotes :=
  jsarch_sort_sorted [noteTwo, noteTen, noteOne, noteOneOne, noteOneTwo]
    (List.mem_permutations'.mp (by decide)) (by decide) (by decide)

/-- C6: the comment text `"Architecture Note #1.2: Title\n\nBody text."`
parses to a note with id string "1.2" (components 1 and 2), title
"Title" and body "Body text.". -/
theorem noteParser_example :
    noteOfComment "f"
        { text := "Architecture Note #1.2: Title\n\nBody text.", startLine := 1, endLine := 3 } =
      some { num := "1.2", title := "Title", content := "Body text.", filePath := "f",
             startLine := 1, endLine := 3 } ∧
    titleLevelsOf "1.2" = [some 1, some 2] := by decide

/-- C9: the context link line rendered for a Note at
`/repo/src/a.js` lines 10-14 with `cwd = "/repo"` and `base = "."` is
exactly `[See in context](./src/a.js#L10-L14)`, whatever the note's id,
title and body are. -/
theorem contextLink_example (num title content : String) :
    contextLink "." "/repo"
        { num := num, title := title, content := content, filePath := "/repo/src/a.js",
          startLine := 10, endLine := 14 } =
      "[See in context](./src/a.js#L10-L14)" := by
  show "[See in context](" ++ "." ++ "/" ++ pathRelative "/repo" "/repo/src/a.js" ++
    "#L" ++ toString (10 : Nat) ++ "-L" ++ toString (14 : Nat) ++ ")" =
    "[See in context](./src/a.js#L10-L14)"
  decide

/-- C3: when reading `bad.js` fails, the whole collection over
`[good.js, bad.js]` rejects — no note from `good.js` is returned — but
the rejection's outer discriminator is `E_FILE_PARSE_FAILURE` (wrapping
the Node `path` module), with the claimed `E_FILE_FAILURE(bad.js)` only
as the wrapped inner cause: the read-failure wrapper thrown by the first
catch flows into the final catch of the promise chain and is wrapped
again. -/
theorem fileFailure_collect_eval :
    collectNotes readFileGoodBad parseAstOneNote ["good.js", "bad.js"] =
      Except.error (JsErr.wrapped "E_FILE_PARSE_FAILURE" ErrParam.pathModule
        (JsErr.wrapped "E_FILE_FAILURE" (ErrParam.str "bad.js") (JsErr.external "EACCES"))) ∧
    (∀ code param cause, JsErr.wrapped "E_FILE_PARSE_FAILURE" ErrParam.pathModule
        (JsErr.wrapped "E_FILE_FAILURE" (ErrParam.str "bad.js") (JsErr.external "EACCES")) =
        JsErr.wrapped code param cause → code = "E_FILE_PARSE_FAILURE") := by
  constructor
  · rfl
  · intro code param cause h
    cases h
    rfl

/-- C4: when the syntax-tree construction fails, the extraction rejects
with discriminator `E_FILE_PARSE_FAILURE` wrapping the original parse
error, but the second wrap parameter is the Node `path` module — not the
failing file's path `src/a.js` as claimed (source lines 205-209 pass
`path`, the module required at line 4, instead of `filePath`). -/
theorem parseFailure_eval :
    _extractArchitectureNotes (fun _ => Except.ok "var (;")
        (fun _ => Except.error (JsErr.external "SyntaxError")) "src/a.js" =
      Except.error (JsErr.wrapped "E_FILE_PARSE_FAILURE" ErrParam.pathModule
        (JsErr.external "SyntaxError")) ∧
    ErrParam.pathModule ≠ ErrParam.str "src/a.js" := ⟨by rfl, by decide⟩

theorem shebangTest_of_drop :
    ∀ (l : List Char) (i : Nat), matchShebangAt (l.drop i) = true → shebangTest l = true := by
  intro l
  induction l with
  | nil => intro i h; simp [matchShebangAt] at h
  | cons c r ih =>
    intro i h
    cases i with
    | zero => simpa [shebangTest] using Or.inl h
    | succ i' =>
      have := ih i' (by simpa using h)
      simp [shebangTest, this]

theorem stringData_append (s t : String) : (s ++ t).data = s.data ++ t.data := rfl

theorem takeWhile_append_all {p : Char → Bool} {l₁ l₂ : List Char}
    (h : ∀ c ∈ l₁, p c = true) : (l₁ ++ l₂).takeWhile p = l₁ ++ l₂.takeWhile p :=
  List.takeWhile_append_of_pos h

set_option maxRecDepth 4000 in
/-- C10: the shebang neutralization triggers on the pattern occurring at
*any* position of the content, not only on a first line: whenever some
position matches `#! (\/\w+)+ node`, the whole content is prefixed with
`// Shebang commented by jsarch: `, which extends the file's actual
first line into a line whose first two characters are `//` — a line
comment for the downstream parse. -/
theorem stripShebang_anywhere (content : String) (i : Nat)
    (h : matchShebangAt (content.data.drop i) = true) :
    _stripShebang content = "// Shebang commented by jsarch: " ++ content ∧
    (_stripShebang content).data.takeWhile (fun c => !(c == '\n')) =
      "// Shebang commented by jsarch: ".data ++
        content.data.takeWhile (fun c => !(c == '\n')) := by
  have htest : shebangTest content.data = true := shebangTest_of_drop content.data i h
  have h1 : _stripShebang content = "// Shebang commented by jsarch: " ++ content := by
    simp [_stripShebang, htest]
  refine ⟨h1, ?_⟩
  rw [h1, stringData_append]
  exact takeWhile_append_all (by decide)

/-- Witness for C10: the shebang pattern sits inside a string literal on
the second line of `midFileShebangContent` (position 22), and the whole
content still gets prefixed. -/
theorem stripShebang_anywhere_witness :
    _stripShebang midFileShebangContent =
      "// Shebang commented by jsarch: " ++ midFileShebangContent ∧
    (_stripShebang midFileShebangContent).data.takeWhile (fun c => !(c == '\n')) =
      "// Shebang commented by jsarch: ".data ++
        midFileShebangContent.data.takeWhile (fun c => !(c == '\n')) :=
  stripShebang_anywhere midFileShebangContent 22 (by decide)

theorem dropLiteral_eq_append :
    ∀ (cs l r : List Char), dropLiteral cs l = some r → l = cs ++ r := by
  intro cs
  induction cs with
  | nil =>
    intro l r h
    simp [dropLiteral] at h
    simp [h]
  | cons c cs ih =>
    intro l r h
    cases l with
    | nil => simp [dropLiteral] at h
    | cons x xs =>
      by_cases hc : c = x
      · subst hc
        simp [dropLiteral] at h
        simp [ih xs r h]
      · simp [dropLiteral, hc] at h

theorem parseIdGroups_eq_append :
    ∀ (f : Nat) (l g r : List Char), parseIdGroups f l = some (g, r) → l = g ++ r := by
  intro f
  induction f with
  | zero => intro l g r h; simp [parseIdGroups] at h
  | succ f ih =>
    intro l g r h
    unfold parseIdGroups at h
    split at h
    · cases h
    · split at h
      next c r2 heq =>
        split at h
        · split at h
          next gs r3 heq2 =>
            simp only [Option.some.injEq, Prod.mk.injEq] at h
            obtain ⟨hg, hr⟩ := h
            have hin := ih (c :: r2) gs r3 heq2
            calc l = l.takeWhile Char.isDigit ++ l.dropWhile Char.isDigit :=
                (List.takeWhile_append_dropWhile Char.isDigit l).symm
            _ = l.takeWhile Char.isDigit ++ '.' :: (gs ++ r3) := by rw [heq, hin]
            _ = g ++ r := by rw [← hg, ← hr]; simp
          next => cases h
        · simp only [Option.some.injEq, Prod.mk.injEq] at h
          obtain ⟨hg, hr⟩ := h
          rw [← hg, ← hr]
          exact (List.takeWhile_append_dropWhile Char.isDigit l).symm
      next =>
        simp only [Option.some.injEq, Prod.mk.injEq] at h
        obtain ⟨hg, hr⟩ := h
        rw [← hg, ← hr]
        exact (List.takeWhile_append_dropWhile Char.isDigit l).symm

theorem head?_dropWhile_false (p : Char → Bool) (l : List Char) (c : Char)
    (h : (l.dropWhile p).head? = some c) : p c = false := by
  have hh := List.head?_dropWhile_not p l
  rw [h] at hh
  exact hh

/-- C7 amended: for every comment text matched by the marker regexp, the
matched marker decomposes into leading whitespace, the literal, the id,
a colon, nonempty whitespace, and a title that is the maximal run of
characters other than carriage return, newline *and dollar sign* (not
"any character up to end of line": `$` also terminates the title, since
the character class of the regexp is `[^\r\n$]`); the remainder of the
comment after the matched marker — beginning with one of those three
terminator characters if nonempty — becomes the body; the note then
carries the trimmed title and trimmed body. -/
theorem matchNoteMarker_shape (s : String) (w n t : List Char)
    (h : matchNoteMarkerL s.data = some (w, n, t)) :
    ∃ ws ws2 rest,
      s.data = w ++ rest ∧
      w = ws ++ noteMarkerLiteral ++ n ++ ':' :: (ws2 ++ t) ∧
      ws2 ≠ [] ∧
      (∀ c ∈ ws2, jsWhitespaceChar c = true) ∧
      (∀ c ∈ t, titleChar c = true) ∧
      (∀ c, rest.head? = some c → (c = '\r' ∨ c = '\n' ∨ c = '$')) ∧
      (∀ fp ls le, noteOfComment fp { text := s, startLine := ls, endLine := le } =
        some { num := String.mk n, title := String.mk (jsTrim t),
               content := String.mk (jsTrim rest), filePath := fp,
               startLine := ls, endLine := le }) := by
  have h0 := h
  unfold matchNoteMarkerL at h
  split at h
  · cases h
  next r2 hdl =>
    split at h
    · cases h
    next num r3 hpg =>
      split at h
      next r4 =>
        split at h
        · cases h
        next hws2 =>
          simp only [Option.some.injEq, Prod.mk.injEq] at h
          obtain ⟨hw, hn, ht⟩ := h
          have e1 : s.data =
              s.data.takeWhile jsWhitespaceChar ++ s.data.dropWhile jsWhitespaceChar :=
            (List.takeWhile_append_dropWhile jsWhitespaceChar s.data).symm
          have e2 : s.data.dropWhile jsWhitespaceChar = noteMarkerLiteral ++ r2 :=
            dropLiteral_eq_append noteMarkerLiteral _ r2 hdl
          have e3 : r2 = num ++ ':' :: r4 := parseIdGroups_eq_append 8 r2 num _ hpg
          have e5 : r4 = r4.takeWhile jsWhitespaceChar ++ r4.dropWhile jsWhitespaceChar :=
            (List.takeWhile_append_dropWhile jsWhitespaceChar r4).symm
          have e6 : r4.dropWhile jsWhitespaceChar =
              (r4.dropWhile jsWhitespaceChar).takeWhile titleChar ++
                (r4.dropWhile jsWhitespaceChar).dropWhile titleChar :=
            (List.takeWhile_append_dropWhile titleChar (r4.dropWhile jsWhitespaceChar)).symm
          have hsplit : s.data = w ++ (r4.dropWhile jsWhitespaceChar).dropWhile titleChar := by
            rw [← hw]
            calc s.data = s.data.takeWhile jsWhitespaceChar ++ (noteMarkerLiteral ++ r2) := by
                  rw [← e2]; exact e1
            _ = s.data.takeWhile jsWhitespaceChar ++ (noteMarkerLiteral ++ (num ++ ':' :: r4)) := by
                  rw [← e3]
            _ = _ := by
                  rw [e5]
                  conv_lhs => rw [e6]
                  simp [List.append_assoc]
          refine ⟨s.data.takeWhile jsWhitespaceChar, r4.takeWhile jsWhitespaceChar,
            (r4.dropWhile jsWhitespaceChar).dropWhile titleChar,
            hsplit, by rw [← hw, ← hn, ← ht], hws2,
            fun c hc => List.mem_takeWhile_imp hc,
            fun c hc => List.mem_takeWhile_imp (ht.symm ▸ hc),
            fun c hc => ?_, fun fp ls le => ?_⟩
          · have hfalse : titleChar c = false := head?_dropWhile_false titleChar _ c hc
            simp only [titleChar, Bool.not_eq_false', Bool.or_eq_true, beq_iff_eq] at hfalse
            rcases hfalse with hx | hx
            · rcases hx with hx | hx
              · exact Or.inl hx
              · exact Or.inr (Or.inl hx)
            · exact Or.inr (Or.inr hx)
          · have hdrop : s.data.drop w.length = (r4.dropWhile jsWhitespaceChar).dropWhile titleChar := by
              rw [hsplit, List.drop_left]
            simp [noteOfComment, h0, hdrop]
      next => cases h

/-- C7 counterexample: on the comment text `Architecture Note #1: a$b`
the claim predicts title `a$b` (all text to end of line) and empty body,
but the code stops the title at the dollar sign: title is `a` and body
is `$b`. -/
theorem noteParser_title_cex :
    noteOfComment "f" { text := "Architecture Note #1: a$b", startLine := 1, endLine := 1 } =
      some { num := "1", title := "a", content := "$b", filePath := "f",
             startLine := 1, endLine := 1 } ∧
    ("a" : String) ≠ "a$b" ∧ ("$b" : String) ≠ "" := by decide

/-- Witness for the amended C7 at the comment text
`Architecture Note #1: a$b`. -/
theorem matchNoteMarker_shape_witness :
    ∃ ws ws2 rest,
      ("Architecture Note #1: a$b" : String).data = "Architecture Note #1: a".data ++ rest ∧
      ("Architecture Note #1: a" : String).data =
        ws ++ noteMarkerLiteral ++ ['1'] ++ ':' :: (ws2 ++ ['a']) ∧
      ws2 ≠ [] ∧
      (∀ c ∈ ws2, jsWhitespaceChar c = true) ∧
      (∀ c ∈ ['a'], titleChar c = true) ∧
      (∀ c, rest.head? = some c → (c = '\r' ∨ c = '\n' ∨ c = '$')) ∧
      (∀ fp ls le,
        noteOfComment fp { text := "Architecture Note #1: a$b", startLine := ls, endLine := le } =
          some { num := String.mk ['1'], title := String.mk (jsTrim ['a']),
                 content := String.mk (jsTrim rest), filePath := fp,
                 startLine := ls, endLine := le }) :=
  matchNoteMarker_shape "Architecture Note #1: a$b"
    ("Architecture Note #1: a" : String).data ['1'] ['a'] (by decide)

theorem matchShebangAt_env_node (rest : List Char) :
    matchShebangAt ("#! /usr/bin/env node".data ++ rest) = true := rfl

/-- C8: for a file whose content begins with `#! /usr/bin/env node`, the
shebang regexp fires, the content handed to the parse step is the
original content prefixed by `// Shebang commented by jsarch: ` (no
newline added, so all line numbers are preserved — the prefix contains
no newline character); if the parser collaborator parses that
neutralized content into a comment list, the extraction succeeds with
exactly the notes of those comments (no `E_FILE_PARSE_FAILURE`), and the
comment covering the neutralized shebang line yields no note. -/
theorem shebang_file_extraction
    (readFileAsync : String → Except JsErr String)
    (parseAst : String → Except JsErr (List SourceComment))
    (fp content : String) (restC : List Char) (comments : List SourceComment)
    (h1 : content.data = "#! /usr/bin/env node".data ++ restC)
    (h2 : readFileAsync fp = Except.ok content)
    (h3 : parseAst (_stripShebang content) = Except.ok comments) :
    _extractArchitectureNotes readFileAsync parseAst fp =
      Except.ok (comments.filterMap (noteOfComment fp)) ∧
    _stripShebang content = "// Shebang commented by jsarch: " ++ content ∧
    noteOfComment fp
        { text := " Shebang commented by jsarch: #! /usr/bin/env node",
          startLine := 1, endLine := 1 } = none ∧
    ("// Shebang commented by jsarch: " : String).data.all (fun c => !(c == '\n')) = true := by
  have htest : shebangTest content.data = true := by
    refine shebangTest_of_drop content.data 0 ?_
    rw [List.drop_zero, h1]
    exact matchShebangAt_env_node restC
  have hstrip : _stripShebang content = "// Shebang commented by jsarch: " ++ content := by
    simp [_stripShebang, htest]
  refine ⟨?_, hstrip, rfl, by decide⟩
  unfold _extractArchitectureNotes
  rw [h2]
  simp [promiseMap, promiseCatch, promiseThen, h3]

/-- Witness for C8 with a concrete two-line CLI file and a parser
collaborator reporting the neutralized shebang comment and one ordinary
note comment. -/
theorem shebang_file_extraction_witness :
    _extractArchitectureNotes (fun _ => Except.ok shebangContent)
        (fun _ => Except.ok shebangComments) "cli.js" =
      Except.ok (shebangComments.filterMap (noteOfComment "cli.js")) ∧
    _stripShebang shebangContent = "// Shebang commented by jsarch: " ++ shebangContent ∧
    noteOfComment "cli.js"
        { text := " Shebang commented by jsarch: #! /usr/bin/env node",
          startLine := 1, endLine := 1 } = none ∧
    ("// Shebang commented by jsarch: " : String).data.all (fun c => !(c == '\n')) = true :=
  shebang_file_extraction (fun _ => Except.ok shebangContent)
    (fun _ => Except.ok shebangComments) "cli.js" shebangContent
    "\nvar x = 1;".data shebangComments (by decide) rfl rfl
